import Mathlib

-- Verification of the authentication core of the go-todo-api repository:
-- token issuance (GenerateToken), token verification (ValidateToken), the
-- authorization middleware (AuthMiddleware), the context accessor
-- (GetUserIDFromContext), and the guard clauses of the todo handlers.
--
-- Times are modelled as Int seconds, the shared secret as a String (the Go
-- os.Getenv result; "" models both unset and empty), and token strings as
-- List Char.  HMAC-SHA256 is modelled symbolically as a perfect MAC (see
-- macSign below).  The compact three-segment serialization of the jwt library
-- is modelled by a concrete injective encoding (see encodeToken).

namespace GoTodoApi

-- ### Decimal digit strings ------------------------------------------------

/-- Little-endian base-10 digits of a number, with explicit fuel so that the
recursion is structural (the fuel `n` always suffices for the number `n`). -/
def natDigitsAux : Nat → Nat → List Nat
  | _, 0 => []
  | 0, _ + 1 => []
  | fuel + 1, n + 1 => (n + 1) % 10 :: natDigitsAux fuel ((n + 1) / 10)

/-- Little-endian base-10 digits of `n` (`natDigits 0 = []`). -/
def natDigits (n : Nat) : List Nat := natDigitsAux n n

/-- Reassemble a number from little-endian base-10 digits. -/
def ofDigitsTen : List Nat → Nat
  | [] => 0
  | d :: ds => d + 10 * ofDigitsTen ds

-- ### Digit characters -----------------------------------------------------

/-- The ASCII digit character for a digit value. -/
def digitToChar (d : Nat) : Char := Char.ofNat (48 + d)

/-- Partial inverse of `digitToChar`: accepts exactly the characters 0-9. -/
def charToDigit (c : Char) : Option Nat :=
  if 48 ≤ c.toNat ∧ c.toNat ≤ 57 then some (c.toNat - 48) else none

-- ### Number segments ------------------------------------------------------

/-- Render a natural number as a (little-endian) digit character list. -/
def encNat (n : Nat) : List Char := (natDigits n).map digitToChar

/-- Decode a character list as a list of digit values; fails on any non-digit. -/
def decDigits : List Char → Option (List Nat)
  | [] => some []
  | c :: cs =>
    match charToDigit c, decDigits cs with
    | some d, some ds => some (d :: ds)
    | _, _ => none

/-- Decode a digit character list back into a natural number. -/
def decNat (l : List Char) : Option Nat :=
  match decDigits l with
  | some ds => some (ofDigitsTen ds)
  | none => none

-- ### Integer segments -----------------------------------------------------

/-- Render an integer: nonnegative values as digits, negatives with a
leading minus sign. -/
def encInt : Int → List Char
  | Int.ofNat n => encNat n
  | Int.negSucc n => '-' :: encNat (n + 1)

/-- Decode an integer character list (leading minus for negatives). -/
def decInt (l : List Char) : Option Int :=
  if l.head? = some '-' then
    match decNat l.tail with
    | some n => some (-(n : Int))
    | none => none
  else
    match decNat l with
    | some n => some ((n : Int))
    | none => none

-- ### Splitting on a separator ---------------------------------------------

/-- Split a character list on a separator character; always returns at least
one (possibly empty) piece, like Go's strings.Split. -/
def splitOn (sep : Char) : List Char → List (List Char)
  | [] => [[]]
  | c :: rest =>
    if c = sep then [] :: splitOn sep rest
    else
      match splitOn sep rest with
      | [] => [[c]]
      | p :: ps => (c :: p) :: ps

-- ### Token data model (src/internal/pkg/auth/auth.go) ----------------------

/-- Signing algorithms a token header can declare.  The source pins signing to
HS256 (`jwt.SigningMethodHS256`) and verification to the HMAC family
(`*jwt.SigningMethodHMAC`); the other constructors model the asymmetric and
unsigned algorithms an attacker could declare. -/
inductive Alg where
  | HS256
  | HS384
  | HS512
  | RS256
  | ES256
  | noneAlg
deriving DecidableEq

/-- The jwt.RegisteredClaims fields set by GenerateToken (seconds). -/
structure RegisteredClaims where
  expiresAt : Int
  issuedAt : Int
deriving DecidableEq

/-- The UserClaims struct of auth.go: a user ID plus registered claims. -/
structure UserClaims where
  userID : Int
  registered : RegisteredClaims
deriving DecidableEq

/-- Modelled from the spec: HMAC-SHA256 "signature computed over the rest using
a shared secret" with "fixed-length deterministic keyed digest, not reversible,
computationally infeasible to forge without the secret".  The MAC (library code,
not in src/) is modelled as a perfect MAC: a digest formally determined by, and
collision-free across, the algorithm, the key and the signed header/payload. -/
structure MacSig where
  alg : Alg
  key : String
  signedClaims : UserClaims
deriving DecidableEq

/-- Compute the symbolic MAC digest over the header/payload of a token. -/
def macSign (alg : Alg) (key : String) (claims : UserClaims) : MacSig :=
  ⟨alg, key, claims⟩

/-- A parsed compact token: declared algorithm (header), claims (payload) and
signature segment. -/
structure Token where
  alg : Alg
  claims : UserClaims
  sig : MacSig
deriving DecidableEq

-- ### Compact serialization -------------------------------------------------

/-- Header segment: the algorithm name (models base64url of the JSON header). -/
def encAlg : Alg → List Char
  | .HS256 => ['H', 'S', '2', '5', '6']
  | .HS384 => ['H', 'S', '3', '8', '4']
  | .HS512 => ['H', 'S', '5', '1', '2']
  | .RS256 => ['R', 'S', '2', '5', '6']
  | .ES256 => ['E', 'S', '2', '5', '6']
  | .noneAlg => ['n', 'o', 'n', 'e']

/-- Decode a header segment; unknown algorithm names fail (the jwt library
reports an unavailable signing method for them). -/
def decAlg : List Char → Option Alg
  | ['H', 'S', '2', '5', '6'] => some .HS256
  | ['H', 'S', '3', '8', '4'] => some .HS384
  | ['H', 'S', '5', '1', '2'] => some .HS512
  | ['R', 'S', '2', '5', '6'] => some .RS256
  | ['E', 'S', '2', '5', '6'] => some .ES256
  | ['n', 'o', 'n', 'e'] => some .noneAlg
  | _ => none

/-- Payload segment: user_id, exp and iat, underscore-separated (models
base64url of the JSON claims). -/
def encClaims (c : UserClaims) : List Char :=
  encInt c.userID ++ '_' :: (encInt c.registered.expiresAt ++ '_' :: encInt c.registered.issuedAt)

/-- Decode a payload segment. -/
def decClaims (l : List Char) : Option UserClaims :=
  match splitOn '_' l with
  | [a, b, c] =>
    match decInt a, decInt b, decInt c with
    | some u, some e, some i => some ⟨u, ⟨e, i⟩⟩
    | _, _, _ => none
  | _ => none

/-- Key part of a signature segment: each key character as an underscore-led
run of decimal digits of its code point. -/
def encKeyTail : List Char → List Char
  | [] => []
  | ch :: rest => '_' :: (encNat ch.toNat ++ encKeyTail rest)

/-- Decode the key part of a signature segment back into characters. -/
def decKeyPieces : List (List Char) → Option (List Char)
  | [] => some []
  | p :: ps =>
    match decNat p, decKeyPieces ps with
    | some n, some rest => some (Char.ofNat n :: rest)
    | _, _ => none

/-- Signature segment: the symbolic digest rendered as algorithm name, signed
claims and key code points, underscore-separated (models base64url of the
HMAC bytes). -/
def encSig (s : MacSig) : List Char :=
  encAlg s.alg ++ '_' :: (encClaims s.signedClaims ++ encKeyTail s.key.toList)

/-- Decode a signature segment. -/
def decSig (l : List Char) : Option MacSig :=
  match splitOn '_' l with
  | a :: b :: c :: d :: rest =>
    match decAlg a, decInt b, decInt c, decInt d, decKeyPieces rest with
    | some alg, some u, some e, some i, some key =>
      some ⟨alg, String.mk key, ⟨u, ⟨e, i⟩⟩⟩
    | _, _, _, _, _ => none
  | _ => none

/-- Compact three-segment serialization of a token, the segments separated
by dots as in the jwt compact serialization. -/
def encodeToken (t : Token) : List Char :=
  encAlg t.alg ++ '.' :: (encClaims t.claims ++ '.' :: encSig t.sig)

/-- Parse a compact token string: exactly three dot-separated segments, each
of which must decode. -/
def parseCompact (l : List Char) : Option Token :=
  match splitOn '.' l with
  | [h, p, g] =>
    match decAlg h, decClaims p, decSig g with
    | some alg, some claims, some sig => some ⟨alg, claims, sig⟩
    | _, _, _ => none
  | _ => none

-- ### Token service (GenerateToken / ValidateToken, auth.go lines 23-63) -----

/-- Error taxonomy of the token service: the missing-secret error of lines
25-27 and 42-45 (ConfigurationError) and every parse, signing-method,
signature or expiry failure of lines 47-62 (InvalidTokenError). -/
inductive AuthError where
  | configuration
  | invalidToken
deriving DecidableEq

/-- The fixed validity window: 2 * time.Hour, in seconds (auth.go line 32). -/
def twoHours : Int := 7200

/-- GenerateToken (auth.go lines 23-39): reject an empty secret, then build
claims with expiresAt = now + 2h and issuedAt = now, and sign with HS256.
`now` models time.Now() in seconds. -/
def GenerateToken (secretKey : String) (now : Int) (userID : Int) :
    Except AuthError (List Char) :=
  if secretKey = "" then .error .configuration
  else
    let claims : UserClaims := ⟨userID, ⟨now + twoHours, now⟩⟩
    .ok (encodeToken ⟨.HS256, claims, macSign .HS256 secretKey claims⟩)

/-- The keyfunc check of auth.go lines 48-50: the declared method must be a
*jwt.SigningMethodHMAC, i.e. one of the HS256/HS384/HS512 family. -/
def isHMACMethod : Alg → Bool
  | .HS256 => true
  | .HS384 => true
  | .HS512 => true
  | _ => false

/-- The jwt.ParseWithClaims pipeline on an already-parsed token: keyfunc
method check, signature verification against the digest recomputed under the
configured secret, then claims validation (exp must be strictly in the
future; the jwt/v5 validator does not check iat by default and no nbf is
set).  Every failure surfaces as InvalidTokenError. -/
def checkToken (secretKey : String) (now : Int) (t : Token) :
    Except AuthError UserClaims :=
  if isHMACMethod t.alg = false then .error .invalidToken
  else if t.sig ≠ macSign t.alg secretKey t.claims then .error .invalidToken
  else if now < t.claims.registered.expiresAt then .ok t.claims
  else .error .invalidToken

/-- ValidateToken (auth.go lines 41-63): reject an empty secret, then parse
the compact string and run the verification pipeline. -/
def ValidateToken (secretKey : String) (now : Int) (jwtString : List Char) :
    Except AuthError UserClaims :=
  if secretKey = "" then .error .configuration
  else
    match parseCompact jwtString with
    | some t => checkToken secretKey now t
    | none => .error .invalidToken

-- ### Authorization gate (AuthMiddleware, auth.go lines 65-93) ---------------

/-- An HTTP response as the gate produces it: a status code and a plain-text
body (the downstream handler's output is opaque at this level). -/
structure HttpResponse where
  status : Nat
  body : String
deriving DecidableEq

/-- An inbound request as the gate sees it: the Authorization header value
([] models the absent header, since Header.Get returns "") and the request
context, which can carry the user ID under the middleware's context key. -/
structure Request where
  authHeader : List Char
  ctx : Option Int
deriving DecidableEq

/-- The characters of the fixed case-sensitive prefix "Bearer ". -/
def bearerChars : List Char := ['B', 'e', 'a', 'r', 'e', 'r', ' ']

/-- Model of strings.TrimPrefix: drop `pre` when it is a prefix of `s`,
otherwise return `s` unchanged. -/
def trimLeading (pre s : List Char) : List Char :=
  if pre.isPrefixOf s then s.drop pre.length else s

/-- Instrumentation of one gate run: whether ValidateToken was reached
(auth.go line 79) and the exact requests the downstream handler was invoked
on (line 86). -/
structure GateLog where
  validateCalled : Bool
  handlerCalls : List Request
deriving DecidableEq

/-- AuthMiddleware (auth.go lines 65-88): reject a missing header with 401,
reject a header without the "Bearer " prefix with 401 (detected, as in the
source, by TrimPrefix returning the header unchanged), reject an invalid
token with 401, and otherwise invoke the downstream handler once with the
user ID attached to the request context. -/
def AuthMiddleware (secretKey : String) (now : Int)
    (todoHandler : Request → HttpResponse) (r : Request) : HttpResponse × GateLog :=
  if r.authHeader = [] then
    (⟨401, "Authorization header required"⟩, ⟨false, []⟩)
  else
    let tokenString := trimLeading bearerChars r.authHeader
    if tokenString = r.authHeader then
      (⟨401, "Invalid token format (expected Bearer token)"⟩, ⟨false, []⟩)
    else
      match ValidateToken secretKey now tokenString with
      | .error _ => (⟨401, "Invalid or expired token"⟩, ⟨true, []⟩)
      | .ok claims =>
        let r2 : Request := { r with ctx := some claims.userID }
        (todoHandler r2, ⟨true, [r2]⟩)

/-- GetUserIDFromContext (auth.go lines 90-93): the Go type assertion
`ctx.Value(contextKey).(int)` yields the stored ID with ok = true, or the
zero value 0 with ok = false. -/
def GetUserIDFromContext (ctx : Option Int) : Int × Bool :=
  match ctx with
  | some userID => (userID, true)
  | none => (0, false)

-- ### Todo handlers (todo_handlers.go) ---------------------------------------

/-- HTTP methods used by the handlers. -/
inductive HMethod where
  | get
  | post
  | put
  | delete
deriving DecidableEq

/-- The models.TodoItem fields used by the handlers. -/
structure TodoItem where
  id : Int
  title : String
  desc : String
deriving DecidableEq

/-- The models.CreateRequest payload (title and description). -/
structure CreateRequest where
  title : String
  desc : String
deriving DecidableEq

/-- Response bodies a todo handler can produce: a plain-text error, a JSON
todo item, the JSON list envelope of GetTodos, or no body (204). -/
inductive RespBody where
  | text (s : String)
  | jsonTodo (t : TodoItem)
  | jsonTodoList (items : List TodoItem) (page limit total : Int)
  | noBody
deriving DecidableEq

/-- A todo handler response: status code and body. -/
structure TodoResponse where
  status : Nat
  body : RespBody
deriving DecidableEq

/-- Resources a handler can touch after its guard clauses: the request body,
the request URL (path or query), and the data store. -/
inductive Access where
  | body
  | url
  | db
deriving DecidableEq

/-- Database errors as the handlers distinguish them: sql.ErrNoRows versus
any other failure. -/
inductive DbErr where
  | noRows
  | failure
deriving DecidableEq

/-- A request as the todo handlers see it: method, context, the io.ReadAll
outcome for the body, the strings.Split(r.URL.Path, "/") segments, and the
raw page/limit query parameters. -/
structure TodoRequest where
  method : HMethod
  ctx : Option Int
  rawBody : Except Unit String
  pathSegments : List String
  pageParam : String
  limitParam : String

/-- The external collaborators of the handlers, as oracle functions:
json.Unmarshal into a CreateRequest, strconv.Atoi, and the four
parameterized SQL statements of todo_handlers.go. -/
structure TodoEnv where
  parseCreate : String → Option CreateRequest
  atoi : String → Option Int
  insertTodo : Int → String → String → Except DbErr Int
  updateTodo : String → String → Int → Int → Except DbErr Int
  deleteTodo : Int → Int → Except DbErr Int
  selectTodos : Int → Int → Int → Except DbErr (List TodoItem)

/-- AddTodo (todo_handlers.go lines 16-65), instrumented with the list of
resources read after the guards. -/
def AddTodo (env : TodoEnv) (r : TodoRequest) : TodoResponse × List Access :=
  if r.method ≠ .post then (⟨405, .text "Unaccepted method"⟩, [])
  else
    let uidOk := GetUserIDFromContext r.ctx
    if uidOk.2 = false then
      (⟨401, .text "User ID not found in context. Authentication is required"⟩, [])
    else
      match r.rawBody with
      | .error _ => (⟨400, .text "Error reading request body"⟩, [.body])
      | .ok bodyStr =>
        match env.parseCreate bodyStr with
        | none => (⟨400, .text "Invalid request payload"⟩, [.body])
        | some req =>
          if req.title = "" ∨ req.desc = "" then
            (⟨400, .text "All fields are required"⟩, [.body])
          else
            match env.insertTodo uidOk.1 req.title req.desc with
            | .error _ => (⟨500, .text "Failed to create todo"⟩, [.body, .db])
            | .ok newID => (⟨201, .jsonTodo ⟨newID, req.title, req.desc⟩⟩, [.body, .db])

/-- UpdateTodo (todo_handlers.go lines 67-129), instrumented. -/
def UpdateTodo (env : TodoEnv) (r : TodoRequest) : TodoResponse × List Access :=
  if r.method ≠ .put then (⟨405, .text "Unaccepted method"⟩, [])
  else
    let uidOk := GetUserIDFromContext r.ctx
    if uidOk.2 = false then
      (⟨401, .text "User ID not found in context. Authentication is required"⟩, [])
    else
      if r.pathSegments.length < 3 ∨ r.pathSegments.getD 2 "" = "" then
        (⟨400, .text "Todo ID missing in URL path"⟩, [.url])
      else
        match env.atoi (r.pathSegments.getD 2 "") with
        | none => (⟨400, .text "Invalid todo ID format. Must be an integer."⟩, [.url])
        | some todoID =>
          match r.rawBody with
          | .error _ => (⟨400, .text "Error reading request body"⟩, [.url, .body])
          | .ok bodyStr =>
            match env.parseCreate bodyStr with
            | none => (⟨400, .text "Invalid request payload"⟩, [.url, .body])
            | some req =>
              if req.title = "" ∨ req.desc = "" then
                (⟨400, .text "All fields are required"⟩, [.url, .body])
              else
                match env.updateTodo req.title req.desc todoID uidOk.1 with
                | .error .noRows => (⟨403, .text "Todo not found"⟩, [.url, .body, .db])
                | .error .failure => (⟨500, .text "Failed to update todo"⟩, [.url, .body, .db])
                | .ok updatedID =>
                  (⟨200, .jsonTodo ⟨updatedID, req.title, req.desc⟩⟩, [.url, .body, .db])

/-- DeleteTodo (todo_handlers.go lines 131-170), instrumented. -/
def DeleteTodo (env : TodoEnv) (r : TodoRequest) : TodoResponse × List Access :=
  if r.method ≠ .delete then (⟨405, .text "Unaccepted method"⟩, [])
  else
    let uidOk := GetUserIDFromContext r.ctx
    if uidOk.2 = false then
      (⟨401, .text "User ID not found in context. Authentication is required"⟩, [])
    else
      if r.pathSegments.length < 3 ∨ r.pathSegments.getD 2 "" = "" then
        (⟨400, .text "Todo ID missing in URL path"⟩, [.url])
      else
        match env.atoi (r.pathSegments.getD 2 "") with
        | none => (⟨400, .text "Invalid todo ID format. Must be an integer."⟩, [.url])
        | some todoID =>
          match env.deleteTodo todoID uidOk.1 with
          | .error .noRows => (⟨403, .text "Todo not found"⟩, [.url, .db])
          | .error .failure => (⟨500, .text "Failed to delete todo"⟩, [.url, .db])
          | .ok _ => (⟨204, .noBody⟩, [.url, .db])

/-- GetTodos (todo_handlers.go lines 172-225), instrumented.  Page and limit
fall back to 1 and 10 when absent, unparsable or below 1. -/
def GetTodos (env : TodoEnv) (r : TodoRequest) : TodoResponse × List Access :=
  if r.method ≠ .get then (⟨405, .text "Unaccepted method"⟩, [])
  else
    let uidOk := GetUserIDFromContext r.ctx
    if uidOk.2 = false then
      (⟨401, .text "User ID not found in context. Authentication is required"⟩, [])
    else
      let page : Int :=
        match env.atoi r.pageParam with
        | some n => if n < 1 then 1 else n
        | none => 1
      let limit : Int :=
        match env.atoi r.limitParam with
        | some n => if n < 1 then 10 else n
        | none => 10
      let offset := (page - 1) * limit
      match env.selectTodos uidOk.1 limit offset with
      | .error _ => (⟨500, .text "Failed to retrieve todos"⟩, [.url, .db])
      | .ok todos =>
        (⟨200, .jsonTodoList todos page limit (todos.length : Int)⟩, [.url, .db])


-- ### Proofs ----------------------------------------------------------------

theorem natDigitsAux_fuel (fuel fuel' n : Nat) (h : n ≤ fuel) (h' : n ≤ fuel') :
    natDigitsAux fuel n = natDigitsAux fuel' n := by
  induction fuel generalizing fuel' n with
  | zero =>
    interval_cases n
    cases fuel' <;> rfl
  | succ f ih =>
    cases n with
    | zero => cases fuel' <;> rfl
    | succ m =>
      cases fuel' with
      | zero => omega
      | succ f' =>
        show (m + 1) % 10 :: natDigitsAux f ((m + 1) / 10) =
          (m + 1) % 10 :: natDigitsAux f' ((m + 1) / 10)
        have hd : (m + 1) / 10 ≤ f := by
          have := Nat.div_le_self (m + 1) 10
          omega
        have hd' : (m + 1) / 10 ≤ f' := by
          have := Nat.div_le_self (m + 1) 10
          omega
        rw [ih f' ((m + 1) / 10) hd hd']

theorem ofDigitsTen_natDigitsAux (fuel n : Nat) (h : n ≤ fuel) :
    ofDigitsTen (natDigitsAux fuel n) = n := by
  induction fuel generalizing n with
  | zero =>
    interval_cases n
    rfl
  | succ f ih =>
    cases n with
    | zero => rfl
    | succ m =>
      show ofDigitsTen ((m + 1) % 10 :: natDigitsAux f ((m + 1) / 10)) = m + 1
      have hd : (m + 1) / 10 ≤ f := by
        have := Nat.div_le_self (m + 1) 10
        have := Nat.div_lt_self (Nat.succ_pos m) (by omega : 1 < 10)
        omega
      show (m + 1) % 10 + 10 * ofDigitsTen (natDigitsAux f ((m + 1) / 10)) = m + 1
      rw [ih _ hd]
      omega

theorem ofDigitsTen_natDigits (n : Nat) : ofDigitsTen (natDigits n) = n :=
  ofDigitsTen_natDigitsAux n n (Nat.le_refl n)

theorem natDigitsAux_lt (fuel n : Nat) : ∀ d ∈ natDigitsAux fuel n, d < 10 := by
  induction fuel generalizing n with
  | zero =>
    cases n <;> intro d hd <;> simp [natDigitsAux] at hd
  | succ f ih =>
    cases n with
    | zero => intro d hd; simp [natDigitsAux] at hd
    | succ m =>
      intro d hd
      simp only [natDigitsAux, List.mem_cons] at hd
      rcases hd with h | h
      · omega
      · exact ih _ d h

theorem natDigits_lt (n : Nat) : ∀ d ∈ natDigits n, d < 10 :=
  natDigitsAux_lt n n

theorem digitToChar_toNat (d : Nat) (h : d < 10) : (digitToChar d).toNat = 48 + d := by
  interval_cases d <;> decide

theorem charToDigit_digitToChar (d : Nat) (h : d < 10) :
    charToDigit (digitToChar d) = some d := by
  interval_cases d <;> decide

theorem decDigits_map_digitToChar (ds : List Nat) (h : ∀ d ∈ ds, d < 10) :
    decDigits (ds.map digitToChar) = some ds := by
  induction ds with
  | nil => rfl
  | cons d rest ih =>
    have hd : d < 10 := h d (List.mem_cons_self d rest)
    have hrest : ∀ x ∈ rest, x < 10 := fun x hx => h x (List.mem_cons_of_mem d hx)
    simp only [List.map_cons, decDigits, charToDigit_digitToChar d hd, ih hrest]

theorem decNat_encNat (n : Nat) : decNat (encNat n) = some n := by
  unfold decNat encNat
  rw [decDigits_map_digitToChar (natDigits n) (natDigits_lt n)]
  show some (ofDigitsTen (natDigits n)) = some n
  rw [ofDigitsTen_natDigits]

theorem mem_encNat_toNat (n : Nat) (c : Char) (hc : c ∈ encNat n) :
    48 ≤ c.toNat ∧ c.toNat ≤ 57 := by
  unfold encNat at hc
  rcases List.mem_map.mp hc with ⟨d, hd, hdc⟩
  have hlt : d < 10 := natDigits_lt n d hd
  subst hdc
  rw [digitToChar_toNat d hlt]
  omega

theorem not_mem_encNat (n : Nat) (c : Char) (hc : ¬ (48 ≤ c.toNat ∧ c.toNat ≤ 57)) :
    c ∉ encNat n := fun h => hc (mem_encNat_toNat n c h)

theorem encNat_head_ne_minus (n : Nat) : (encNat n).head? ≠ some '-' := by
  intro h
  cases he : encNat n with
  | nil => rw [he] at h; simp at h
  | cons c cs =>
    rw [he] at h
    simp only [List.head?] at h
    have hmem : c ∈ encNat n := by rw [he]; exact List.mem_cons_self c cs
    have := mem_encNat_toNat n c hmem
    have hc : c = '-' := by injection h
    subst hc
    revert this
    decide

theorem decInt_encInt (i : Int) : decInt (encInt i) = some i := by
  cases i with
  | ofNat n =>
    show decInt (encNat n) = some (Int.ofNat n)
    unfold decInt
    rw [if_neg (encNat_head_ne_minus n), decNat_encNat]
    rfl
  | negSucc n =>
    show decInt ('-' :: encNat (n + 1)) = some (Int.negSucc n)
    unfold decInt
    rw [if_pos (by rfl)]
    show (match decNat (encNat (n + 1)) with
      | some m => some (-(m : Int))
      | none => none) = some (Int.negSucc n)
    rw [decNat_encNat]
    show some (-((n + 1 : Nat) : Int)) = some (Int.negSucc n)
    congr 1

theorem not_mem_encInt (i : Int) (c : Char)
    (hc : ¬ (48 ≤ c.toNat ∧ c.toNat ≤ 57)) (hm : c ≠ '-') : c ∉ encInt i := by
  cases i with
  | ofNat n => exact not_mem_encNat n c hc
  | negSucc n =>
    intro h
    rcases List.mem_cons.mp h with h1 | h1
    · exact hm h1
    · exact not_mem_encNat (n + 1) c hc h1

theorem splitOn_no_sep (sep : Char) (l : List Char) (h : sep ∉ l) :
    splitOn sep l = [l] := by
  induction l with
  | nil => rfl
  | cons c rest ih =>
    have hc : c ≠ sep := fun he => h (he ▸ List.mem_cons_self c rest)
    have hrest : sep ∉ rest := fun hr => h (List.mem_cons_of_mem c hr)
    simp only [splitOn, if_neg hc, ih hrest]

theorem splitOn_append (sep : Char) (a b : List Char) (h : sep ∉ a) :
    splitOn sep (a ++ sep :: b) = a :: splitOn sep b := by
  induction a with
  | nil => simp [splitOn]
  | cons c rest ih =>
    have hc : c ≠ sep := fun he => h (he ▸ List.mem_cons_self c rest)
    have hrest : sep ∉ rest := fun hr => h (List.mem_cons_of_mem c hr)
    show splitOn sep (c :: (rest ++ sep :: b)) = (c :: rest) :: splitOn sep b
    simp only [splitOn, if_neg hc]
    rw [ih hrest]

-- ### Serialization round trip ----------------------------------------------

theorem decAlg_encAlg (a : Alg) : decAlg (encAlg a) = some a := by
  cases a <;> rfl

theorem us_not_mem_encAlg (a : Alg) : ('_' : Char) ∉ encAlg a := by
  cases a <;> decide

theorem dot_not_mem_encAlg (a : Alg) : ('.' : Char) ∉ encAlg a := by
  cases a <;> decide

theorem us_not_mem_encInt (i : Int) : ('_' : Char) ∉ encInt i :=
  not_mem_encInt i '_' (by decide) (by decide)

theorem dot_not_mem_encInt (i : Int) : ('.' : Char) ∉ encInt i :=
  not_mem_encInt i '.' (by decide) (by decide)

theorem splitOn_us_encClaims (c : UserClaims) :
    splitOn '_' (encClaims c) =
      [encInt c.userID, encInt c.registered.expiresAt, encInt c.registered.issuedAt] := by
  unfold encClaims
  rw [splitOn_append '_' _ _ (us_not_mem_encInt c.userID)]
  rw [splitOn_append '_' _ _ (us_not_mem_encInt c.registered.expiresAt)]
  rw [splitOn_no_sep '_' _ (us_not_mem_encInt c.registered.issuedAt)]

theorem decClaims_encClaims (c : UserClaims) : decClaims (encClaims c) = some c := by
  unfold decClaims
  rw [splitOn_us_encClaims]
  show (match decInt (encInt c.userID), decInt (encInt c.registered.expiresAt),
      decInt (encInt c.registered.issuedAt) with
    | some u, some e, some i => some (⟨u, ⟨e, i⟩⟩ : UserClaims)
    | _, _, _ => none) = some c
  rw [decInt_encInt, decInt_encInt, decInt_encInt]

theorem dot_not_mem_encClaims (c : UserClaims) : ('.' : Char) ∉ encClaims c := by
  intro h
  unfold encClaims at h
  rcases List.mem_append.mp h with h1 | h1
  · exact dot_not_mem_encInt _ h1
  · rcases List.mem_cons.mp h1 with h2 | h2
    · exact absurd h2 (by decide)
    · rcases List.mem_append.mp h2 with h3 | h3
      · exact dot_not_mem_encInt _ h3
      · rcases List.mem_cons.mp h3 with h4 | h4
        · exact absurd h4 (by decide)
        · exact dot_not_mem_encInt _ h4

theorem dot_not_mem_encKeyTail (k : List Char) : ('.' : Char) ∉ encKeyTail k := by
  induction k with
  | nil => simp [encKeyTail]
  | cons ch rest ih =>
    intro h
    rcases List.mem_cons.mp h with h1 | h1
    · exact absurd h1 (by decide)
    · rcases List.mem_append.mp h1 with h2 | h2
      · exact not_mem_encNat ch.toNat '.' (by decide) h2
      · exact ih h2

theorem splitOn_us_append_encKeyTail (k : List Char) :
    ∀ a : List Char, ('_' : Char) ∉ a →
      splitOn '_' (a ++ encKeyTail k) = a :: k.map (fun ch => encNat ch.toNat) := by
  induction k with
  | nil =>
    intro a ha
    show splitOn '_' (a ++ []) = [a]
    rw [List.append_nil, splitOn_no_sep '_' a ha]
  | cons ch rest ih =>
    intro a ha
    show splitOn '_' (a ++ '_' :: (encNat ch.toNat ++ encKeyTail rest)) =
      a :: (encNat ch.toNat :: rest.map (fun c => encNat c.toNat))
    rw [splitOn_append '_' _ _ ha]
    rw [ih (encNat ch.toNat) (not_mem_encNat ch.toNat '_' (by decide))]

theorem decKeyPieces_map (k : List Char) :
    decKeyPieces (k.map (fun ch => encNat ch.toNat)) = some k := by
  induction k with
  | nil => rfl
  | cons ch rest ih =>
    show decKeyPieces (encNat ch.toNat :: rest.map (fun c => encNat c.toNat)) = some (ch :: rest)
    unfold decKeyPieces
    rw [decNat_encNat, ih]
    show some (Char.ofNat ch.toNat :: rest) = some (ch :: rest)
    rw [Char.ofNat_toNat]

theorem splitOn_us_encSig (s : MacSig) :
    splitOn '_' (encSig s) =
      encAlg s.alg :: encInt s.signedClaims.userID ::
        encInt s.signedClaims.registered.expiresAt ::
          encInt s.signedClaims.registered.issuedAt ::
            s.key.toList.map (fun ch => encNat ch.toNat) := by
  unfold encSig
  rw [splitOn_append '_' _ _ (us_not_mem_encAlg s.alg)]
  unfold encClaims
  rw [List.append_assoc, List.cons_append]
  rw [splitOn_append '_' _ _ (us_not_mem_encInt s.signedClaims.userID)]
  rw [List.append_assoc, List.cons_append]
  rw [splitOn_append '_' _ _ (us_not_mem_encInt s.signedClaims.registered.expiresAt)]
  rw [splitOn_us_append_encKeyTail s.key.toList _
    (us_not_mem_encInt s.signedClaims.registered.issuedAt)]

theorem decSig_encSig (s : MacSig) : decSig (encSig s) = some s := by
  unfold decSig
  rw [splitOn_us_encSig]
  show (match decAlg (encAlg s.alg), decInt (encInt s.signedClaims.userID),
      decInt (encInt s.signedClaims.registered.expiresAt),
      decInt (encInt s.signedClaims.registered.issuedAt),
      decKeyPieces (s.key.toList.map (fun ch => encNat ch.toNat)) with
    | some alg, some u, some e, some i, some key =>
      some (⟨alg, String.mk key, ⟨u, ⟨e, i⟩⟩⟩ : MacSig)
    | _, _, _, _, _ => none) = some s
  rw [decAlg_encAlg, decInt_encInt, decInt_encInt, decInt_encInt, decKeyPieces_map]
  rfl

theorem dot_not_mem_encSig (s : MacSig) : ('.' : Char) ∉ encSig s := by
  intro h
  unfold encSig at h
  rcases List.mem_append.mp h with h1 | h1
  · exact dot_not_mem_encAlg s.alg h1
  · rcases List.mem_cons.mp h1 with h2 | h2
    · exact absurd h2 (by decide)
    · rcases List.mem_append.mp h2 with h3 | h3
      · exact dot_not_mem_encClaims s.signedClaims h3
      · exact dot_not_mem_encKeyTail s.key.toList h3

theorem parseCompact_encodeToken (t : Token) : parseCompact (encodeToken t) = some t := by
  unfold parseCompact encodeToken
  rw [splitOn_append '.' _ _ (dot_not_mem_encAlg t.alg)]
  rw [splitOn_append '.' _ _ (dot_not_mem_encClaims t.claims)]
  rw [splitOn_no_sep '.' _ (dot_not_mem_encSig t.sig)]
  show (match decAlg (encAlg t.alg), decClaims (encClaims t.claims), decSig (encSig t.sig) with
    | some alg, some claims, some sig => some (⟨alg, claims, sig⟩ : Token)
    | _, _, _ => none) = some t
  rw [decAlg_encAlg, decClaims_encClaims, decSig_encSig]

-- ### Helper lemmas for the gate and the token service -----------------------

theorem trimLeading_append (pre t : List Char) : trimLeading pre (pre ++ t) = t := by
  have h : pre.isPrefixOf (pre ++ t) = true :=
    List.isPrefixOf_iff_prefix.mpr (List.prefix_append pre t)
  simp [trimLeading, h]

theorem trimLeading_unchanged (pre s : List Char) (h : pre.isPrefixOf s = false) :
    trimLeading pre s = s := by
  simp [trimLeading, h]

theorem ne_bearer_append (t : List Char) : ¬ (t = bearerChars ++ t) := by
  intro h
  have hl := congrArg List.length h
  simp [bearerChars] at hl
  omega

theorem bearer_append_ne_nil (t : List Char) : ¬ (bearerChars ++ t = []) := by
  simp [bearerChars]

theorem checkToken_ok (secretKey : String) (now : Int) (c : UserClaims)
    (h : now < c.registered.expiresAt) :
    checkToken secretKey now ⟨.HS256, c, macSign .HS256 secretKey c⟩ = .ok c := by
  unfold checkToken
  rw [if_neg (by decide : ¬ (isHMACMethod Alg.HS256 = false))]
  rw [if_neg (fun hne => hne rfl)]
  rw [if_pos h]

theorem checkToken_expired (secretKey : String) (now : Int) (c : UserClaims)
    (h : c.registered.expiresAt ≤ now) :
    checkToken secretKey now ⟨.HS256, c, macSign .HS256 secretKey c⟩ =
      .error .invalidToken := by
  unfold checkToken
  rw [if_neg (by decide : ¬ (isHMACMethod Alg.HS256 = false))]
  rw [if_neg (fun hne => hne rfl)]
  rw [if_neg (not_lt.mpr h)]

theorem generate_bind_validate (secretKey : String) (uid iat T : Int)
    (hsec : ¬ secretKey = "") :
    (GenerateToken secretKey iat uid).bind (fun tok => ValidateToken secretKey T tok) =
      checkToken secretKey T ⟨.HS256, ⟨uid, ⟨iat + twoHours, iat⟩⟩,
        macSign .HS256 secretKey ⟨uid, ⟨iat + twoHours, iat⟩⟩⟩ := by
  unfold GenerateToken
  rw [if_neg hsec]
  show ValidateToken secretKey T (encodeToken ⟨.HS256, ⟨uid, ⟨iat + twoHours, iat⟩⟩,
    macSign .HS256 secretKey ⟨uid, ⟨iat + twoHours, iat⟩⟩⟩) = _
  unfold ValidateToken
  rw [if_neg hsec, parseCompact_encodeToken]

theorem validate_bad_sig (secretKey : String) (now : Int) (t : Token)
    (hsec : ¬ secretKey = "") (hsig : t.sig ≠ macSign t.alg secretKey t.claims) :
    ValidateToken secretKey now (encodeToken t) = .error .invalidToken := by
  unfold ValidateToken
  rw [if_neg hsec, parseCompact_encodeToken]
  show checkToken secretKey now t = .error .invalidToken
  unfold checkToken
  by_cases h : isHMACMethod t.alg = false
  · rw [if_pos h]
  · rw [if_neg h, if_pos hsig]

-- ### Claim theorems ---------------------------------------------------------

/-- C1: for every valid subject S (positive user ID) and every time T in
[issue time, issue time + 2 hours), with the shared secret configured and
unchanged between the two calls, Verify(Issue(S)) evaluated at time T
succeeds and returns S. -/
theorem generate_validate_roundtrip (secretKey : String) (S iat T : Int)
    (hsec : secretKey ≠ "") (_hpos : 0 < S) (_h1 : iat ≤ T) (h2 : T < iat + twoHours) :
    (GenerateToken secretKey iat S).bind (fun tok => ValidateToken secretKey T tok) =
      .ok ⟨S, ⟨iat + twoHours, iat⟩⟩ := by
  rw [generate_bind_validate secretKey S iat T hsec]
  exact checkToken_ok secretKey T ⟨S, ⟨iat + twoHours, iat⟩⟩ h2

/-- C1 witness: subject 42 issued at time 0 and verified at time 3600 under
secret "k". -/
theorem generate_validate_roundtrip_witness :
    (GenerateToken "k" 0 42).bind (fun tok => ValidateToken "k" 3600 tok) =
      .ok ⟨42, ⟨7200, 0⟩⟩ :=
  generate_validate_roundtrip "k" 42 0 3600 (by decide) (by decide) (by decide) (by decide)

/-- C2: a token whose signature is not the HMAC digest of its header and
payload under the configured secret is rejected with InvalidTokenError — in
particular a token signed under a different secret, since the symbolic MAC
is injective in the key. -/
theorem validate_rejects_forged (secretKey altKey : String) (now : Int) (t : Token)
    (hsec : secretKey ≠ "") (hsig : t.sig ≠ macSign t.alg secretKey t.claims)
    (halt : altKey ≠ secretKey) :
    ValidateToken secretKey now (encodeToken t) = .error .invalidToken ∧
      ValidateToken secretKey now
          (encodeToken ⟨t.alg, t.claims, macSign t.alg altKey t.claims⟩) =
        .error .invalidToken := by
  constructor
  · exact validate_bad_sig secretKey now t hsec hsig
  · exact validate_bad_sig secretKey now ⟨t.alg, t.claims, macSign t.alg altKey t.claims⟩
      hsec (fun he => halt (congrArg MacSig.key he))

/-- C2 witness: a token over claims (1, exp 7200, iat 0) signed under "x" is
rejected when the configured secret is "k". -/
theorem validate_rejects_forged_witness :
    ValidateToken "k" 0 (encodeToken ⟨.HS256, ⟨1, ⟨7200, 0⟩⟩,
        macSign .HS256 "x" ⟨1, ⟨7200, 0⟩⟩⟩) = .error .invalidToken ∧
      ValidateToken "k" 0 (encodeToken ⟨.HS256, ⟨1, ⟨7200, 0⟩⟩,
          macSign .HS256 "x" ⟨1, ⟨7200, 0⟩⟩⟩) = .error .invalidToken :=
  validate_rejects_forged "k" "x" 0
    ⟨.HS256, ⟨1, ⟨7200, 0⟩⟩, macSign .HS256 "x" ⟨1, ⟨7200, 0⟩⟩⟩
    (by decide) (by decide) (by decide)

/-- C3: Verify(Issue(S)) at any time T with T ≥ issue time + 2 hours fails
with InvalidTokenError; at T = issue time + 2h the validator requires the
current time to be strictly before expires-at, so the boundary is rejected. -/
theorem generate_validate_expired (secretKey : String) (S iat T : Int)
    (hsec : secretKey ≠ "") (hexp : iat + twoHours ≤ T) :
    (GenerateToken secretKey iat S).bind (fun tok => ValidateToken secretKey T tok) =
      .error .invalidToken := by
  rw [generate_bind_validate secretKey S iat T hsec]
  exact checkToken_expired secretKey T ⟨S, ⟨iat + twoHours, iat⟩⟩ hexp

/-- C3 witness: a token issued at time 0 is rejected at exactly time 7200. -/
theorem generate_validate_expired_witness :
    (GenerateToken "k" 0 42).bind (fun tok => ValidateToken "k" 7200 tok) =
      .error .invalidToken :=
  generate_validate_expired "k" 42 0 7200 (by decide) (by decide)

/-- C4 counterexample: the claim says Verify rejects every algorithm other
than HMAC-SHA256, but a token declaring HS384 with a valid HMAC digest under
the configured secret is accepted: the keyfunc of auth.go lines 48-50 admits
the whole *jwt.SigningMethodHMAC family, not HS256 alone. -/
theorem validate_accepts_hs384 :
    ValidateToken "k" 0 (encodeToken ⟨.HS384, ⟨1, ⟨7200, 0⟩⟩,
        macSign .HS384 "k" ⟨1, ⟨7200, 0⟩⟩⟩) = .ok ⟨1, ⟨7200, 0⟩⟩ := by
  unfold ValidateToken
  rw [if_neg (by decide : ¬ ("k" = "")), parseCompact_encodeToken]
  rfl

/-- C4 amended: every token whose header declares an algorithm outside the
HMAC family (the 'none' algorithm and asymmetric schemes included) is
rejected with InvalidTokenError regardless of its signature. -/
theorem validate_rejects_non_hmac (secretKey : String) (now : Int) (t : Token)
    (hsec : secretKey ≠ "") (halg : isHMACMethod t.alg = false) :
    ValidateToken secretKey now (encodeToken t) = .error .invalidToken := by
  unfold ValidateToken
  rw [if_neg hsec, parseCompact_encodeToken]
  show checkToken secretKey now t = .error .invalidToken
  unfold checkToken
  rw [if_pos halg]

/-- C4 amended witness: an RS256 token is rejected even with a digest formed
under the configured secret. -/
theorem validate_rejects_non_hmac_witness :
    ValidateToken "k" 0 (encodeToken ⟨.RS256, ⟨1, ⟨7200, 0⟩⟩,
        macSign .RS256 "k" ⟨1, ⟨7200, 0⟩⟩⟩) = .error .invalidToken :=
  validate_rejects_non_hmac "k" 0
    ⟨.RS256, ⟨1, ⟨7200, 0⟩⟩, macSign .RS256 "k" ⟨1, ⟨7200, 0⟩⟩⟩ (by decide) (by decide)

/-- C5: a request whose Authorization header is "Bearer " followed by a token
that ValidateToken accepts with claims c makes the gate invoke the downstream
handler exactly once, on the request whose context carries c's user ID, and
the accessor reads (userID, true) from that context. -/
theorem middleware_valid_token_invokes_handler (secretKey : String) (now : Int)
    (todoHandler : Request → HttpResponse) (ctx0 : Option Int) (t : List Char)
    (c : UserClaims) (hv : ValidateToken secretKey now t = .ok c) :
    AuthMiddleware secretKey now todoHandler ⟨bearerChars ++ t, ctx0⟩ =
      (todoHandler ⟨bearerChars ++ t, some c.userID⟩,
        ⟨true, [⟨bearerChars ++ t, some c.userID⟩]⟩) ∧
      GetUserIDFromContext (some c.userID) = (c.userID, true) := by
  constructor
  · unfold AuthMiddleware
    rw [if_neg (bearer_append_ne_nil t)]
    show (if trimLeading bearerChars (bearerChars ++ t) = bearerChars ++ t then
        (⟨401, "Invalid token format (expected Bearer token)"⟩, (⟨false, []⟩ : GateLog))
      else
        match ValidateToken secretKey now (trimLeading bearerChars (bearerChars ++ t)) with
        | .error _ => (⟨401, "Invalid or expired token"⟩, ⟨true, []⟩)
        | .ok claims =>
          (todoHandler ⟨bearerChars ++ t, some claims.userID⟩,
            ⟨true, [⟨bearerChars ++ t, some claims.userID⟩]⟩)) = _
    rw [trimLeading_append bearerChars t]
    rw [if_neg (ne_bearer_append t), hv]
  · rfl

/-- C5 witness: a concrete valid token for subject 42 under secret "k". -/
theorem middleware_valid_token_invokes_handler_witness :
    AuthMiddleware "k" 0 (fun _ => ⟨200, "ok"⟩)
        ⟨bearerChars ++ encodeToken ⟨.HS256, ⟨42, ⟨7200, 0⟩⟩,
          macSign .HS256 "k" ⟨42, ⟨7200, 0⟩⟩⟩, none⟩ =
      ((⟨200, "ok"⟩ : HttpResponse),
        ⟨true, [⟨bearerChars ++ encodeToken ⟨.HS256, ⟨42, ⟨7200, 0⟩⟩,
          macSign .HS256 "k" ⟨42, ⟨7200, 0⟩⟩⟩, some 42⟩]⟩) ∧
      GetUserIDFromContext (some 42) = (42, true) :=
  middleware_valid_token_invokes_handler "k" 0 (fun _ => ⟨200, "ok"⟩) none
    (encodeToken ⟨.HS256, ⟨42, ⟨7200, 0⟩⟩, macSign .HS256 "k" ⟨42, ⟨7200, 0⟩⟩⟩)
    ⟨42, ⟨7200, 0⟩⟩ (by rfl)

/-- C6: a request with an absent (empty) Authorization header is rejected
with 401; ValidateToken is never reached and the downstream handler is never
invoked. -/
theorem middleware_missing_header (secretKey : String) (now : Int)
    (todoHandler : Request → HttpResponse) (ctx0 : Option Int) :
    AuthMiddleware secretKey now todoHandler ⟨[], ctx0⟩ =
      (⟨401, "Authorization header required"⟩, ⟨false, []⟩) := rfl

/-- C7: a request whose non-empty Authorization header does not start with
the exact case-sensitive prefix "Bearer " is rejected with 401 without
calling ValidateToken and without invoking the downstream handler. -/
theorem middleware_bad_prefix (secretKey : String) (now : Int)
    (todoHandler : Request → HttpResponse) (ctx0 : Option Int) (hdr : List Char)
    (hne : hdr ≠ []) (hnp : bearerChars.isPrefixOf hdr = false) :
    AuthMiddleware secretKey now todoHandler ⟨hdr, ctx0⟩ =
      (⟨401, "Invalid token format (expected Bearer token)"⟩, ⟨false, []⟩) := by
  unfold AuthMiddleware
  rw [if_neg hne]
  show (if trimLeading bearerChars hdr = hdr then
      (⟨401, "Invalid token format (expected Bearer token)"⟩, (⟨false, []⟩ : GateLog))
    else
      match ValidateToken secretKey now (trimLeading bearerChars hdr) with
      | .error _ => (⟨401, "Invalid or expired token"⟩, ⟨true, []⟩)
      | .ok claims =>
        (todoHandler ⟨hdr, some claims.userID⟩, ⟨true, [⟨hdr, some claims.userID⟩]⟩)) = _
  rw [trimLeading_unchanged bearerChars hdr hnp, if_pos rfl]

/-- C7 witness: the header "sometoken" (no Bearer prefix). -/
theorem middleware_bad_prefix_witness :
    AuthMiddleware "k" 0 (fun _ => ⟨200, "ok"⟩)
        ⟨['s', 'o', 'm', 'e', 't', 'o', 'k', 'e', 'n'], none⟩ =
      (⟨401, "Invalid token format (expected Bearer token)"⟩, ⟨false, []⟩) :=
  middleware_bad_prefix "k" 0 (fun _ => ⟨200, "ok"⟩) none
    ['s', 'o', 'm', 'e', 't', 'o', 'k', 'e', 'n'] (by decide) (by decide)

/-- C8: with the shared secret unset or empty (os.Getenv returns "" in both
cases), every GenerateToken call and every ValidateToken call fails with the
ConfigurationError, producing no token and no subject. -/
theorem empty_secret_fails (now userID : Int) (s : List Char) :
    GenerateToken "" now userID = .error .configuration ∧
      ValidateToken "" now s = .error .configuration :=
  ⟨rfl, rfl⟩

/-- C9: each of the four identity-requiring todo handlers, invoked with its
accepted method but a context without a user ID (accessor found-flag false),
responds 401 Unauthorized and touches neither the request body, nor the URL,
nor the data store. -/
theorem handlers_reject_missing_context (env : TodoEnv) (r : TodoRequest) :
    AddTodo env { r with method := .post, ctx := none } =
      (⟨401, .text "User ID not found in context. Authentication is required"⟩, []) ∧
    GetTodos env { r with method := .get, ctx := none } =
      (⟨401, .text "User ID not found in context. Authentication is required"⟩, []) ∧
    UpdateTodo env { r with method := .put, ctx := none } =
      (⟨401, .text "User ID not found in context. Authentication is required"⟩, []) ∧
    DeleteTodo env { r with method := .delete, ctx := none } =
      (⟨401, .text "User ID not found in context. Authentication is required"⟩, []) := by
  exact ⟨rfl, rfl, rfl, rfl⟩

/-- C10: GenerateToken enforces no positivity precondition on the subject:
for every integer user ID, zero and negatives included, issuance under a
non-empty secret succeeds and an immediate ValidateToken returns the same
user ID. -/
theorem generate_no_positivity_check (secretKey : String) (uid now : Int)
    (hsec : secretKey ≠ "") :
    (GenerateToken secretKey now uid).bind (fun tok => ValidateToken secretKey now tok) =
      .ok ⟨uid, ⟨now + twoHours, now⟩⟩ := by
  rw [generate_bind_validate secretKey uid now now hsec]
  refine checkToken_ok secretKey now ⟨uid, ⟨now + twoHours, now⟩⟩ ?_
  have h : (0 : Int) < twoHours := by decide
  show now < now + twoHours
  omega

/-- C10 witness: the negative user ID -7 round-trips at time 5. -/
theorem generate_no_positivity_check_witness :
    (GenerateToken "k" 5 (-7)).bind (fun tok => ValidateToken "k" 5 tok) =
      .ok ⟨-7, ⟨7205, 5⟩⟩ :=
  generate_no_positivity_check "k" (-7) 5 (by decide)

end GoTodoApi
